import Mathlib

/-!
Verification development for the runtime pattern-matching library in
`src/match.ts` (the `Match<T>` class and its entry point `match`).

The embedding models JavaScript runtime values shallowly:
* numbers are rationals plus a distinguished NaN (JS `===` and `<=` on
  numbers are IEEE comparisons; NaN compares false with everything,
  which is what the claims exercise; `+0`/`-0` collapse, and
  infinities are not needed by any claim);
* objects and arrays carry a reference id, since JS `===` on composites
  is reference identity;
* class instances are objects carrying their prototype-chain class
  names (`instanceof` is membership in that chain);
* property lookup (`value[key]`, `key in value`) is over own fields for
  objects, and over `length` plus canonical numeric indices for arrays
  (inherited `Object.prototype` members are outside the model: the
  modelled objects are plain data records);
* a callback the engine cannot finish (a thrown TypeError inside the
  structural matcher) is `Option.none`.
-/

/-- A JavaScript number: NaN or a finite value (modelled as a rational). -/
inductive JSNum where
  | nan
  | fin (q : ℚ)
deriving DecidableEq

/-- A JavaScript runtime value, as used by `match.ts`. -/
inductive Value where
  | vNull
  | vUndef
  | vBool (b : Bool)
  | vNum (n : JSNum)
  | vStr (s : String)
  | vObj (ref : Nat) (cls : List String) (fields : List (String × Value))
  | vArr (ref : Nat) (elems : List Value)

/-- JS `===` on numbers: NaN is never equal to anything, finite values compare exactly. -/
def strictEqNum : JSNum → JSNum → Bool
  | JSNum.fin a, JSNum.fin b => decide (a = b)
  | _, _ => false

/-- JS `<=` on numbers: false whenever either side is NaN. -/
def numLe : JSNum → JSNum → Bool
  | JSNum.fin a, JSNum.fin b => decide (a ≤ b)
  | _, _ => false

/-- JS strict equality `===`: primitive equality on primitives, reference identity on composites. -/
def strictEq : Value → Value → Bool
  | Value.vNull, Value.vNull => true
  | Value.vUndef, Value.vUndef => true
  | Value.vBool a, Value.vBool b => a == b
  | Value.vNum a, Value.vNum b => strictEqNum a b
  | Value.vStr a, Value.vStr b => a == b
  | Value.vObj r1 _ _, Value.vObj r2 _ _ => r1 == r2
  | Value.vArr r1 _, Value.vArr r2 _ => r1 == r2
  | _, _ => false

/-- JS truthiness. -/
def truthy : Value → Bool
  | Value.vNull => false
  | Value.vUndef => false
  | Value.vBool b => b
  | Value.vNum JSNum.nan => false
  | Value.vNum (JSNum.fin q) => decide (q ≠ 0)
  | Value.vStr s => s != ""
  | Value.vObj _ _ _ => true
  | Value.vArr _ _ => true

/-- Whether a value is JS `undefined`. -/
def isUndef : Value → Bool
  | Value.vUndef => true
  | _ => false

/-- First binding of a key in an object's own-field list. -/
def lookupField : List (String × Value) → String → Option Value
  | [], _ => none
  | (k, v) :: rest, key => if k == key then some v else lookupField rest key

/-- Fold a list of decimal digits into a natural number. -/
def digitsVal (cs : List Char) : Nat :=
  cs.foldl (fun acc c => acc * 10 + (c.toNat - 48)) 0

/-- Parse a canonical numeric array index: nonempty, all digits, no leading zero
(except the single string "0"), per JS array index-key semantics. -/
def natKey (s : String) : Option Nat :=
  match s.data with
  | [] => none
  | c :: cs =>
    if (c :: cs).all Char.isDigit && (c != '0' || cs.isEmpty) then
      some (digitsVal (c :: cs))
    else none

/-- Own-property lookup, the runtime meaning of `value[key]` for the modelled values:
object fields by name; for arrays the `length` property and canonical numeric indices. -/
def getField : Value → String → Option Value
  | Value.vObj _ _ fs, k => lookupField fs k
  | Value.vArr _ es, k =>
    if k == "length" then some (Value.vNum (JSNum.fin es.length))
    else match natKey k with
      | some i => es.get? i
      | none => none
  | _, _ => none

/-- JS property read: a missing property reads as `undefined`. -/
def getProp (v : Value) (k : String) : Value :=
  (getField v k).getD Value.vUndef

/-- The JS `in` operator over the modelled values (own properties). -/
def hasField (v : Value) (k : String) : Bool :=
  (getField v k).isSome

/-- JS `instanceof`: membership in the object's class chain; arrays are
instances of `Array` and `Object`. -/
def isInstanceOf : Value → String → Bool
  | Value.vObj _ cls _, c => cls.contains c
  | Value.vArr _ _, c => c == "Array" || c == "Object"
  | _, _ => false

/-- Source `Match.isArrayPattern`: the pattern is a non-null object with a
`length` or `elements` property (note a JS array always has `length`, so any
array used as a pattern is an array pattern). -/
def isArrayPattern : Value → Bool
  | Value.vObj _ _ fs => (lookupField fs "length").isSome || (lookupField fs "elements").isSome
  | Value.vArr _ _ => true
  | _ => false

lemma sizeOf_lookupField : ∀ (fs : List (String × Value)) (k : String) (w : Value),
    lookupField fs k = some w → sizeOf w < sizeOf fs
  | [], _, _, h => by simp [lookupField] at h
  | (k0, v0) :: rest, k, w, h => by
    rw [lookupField] at h
    split at h
    · cases h
      simp
      omega
    · have := sizeOf_lookupField rest k w h
      simp
      omega

lemma sizeOf_getProp_elements {p : Value} {r : Nat} {es : List Value}
    (h : getProp p "elements" = Value.vArr r es) : sizeOf es < sizeOf p := by
  cases p with
  | vObj ref cls fs =>
    have hf : lookupField fs "elements" = some (Value.vArr r es) := by
      simp only [getProp, getField] at h
      cases hl : lookupField fs "elements" with
      | none => rw [hl] at h; simp at h
      | some w => rw [hl] at h; simp at h; rw [h]
    have h1 := sizeOf_lookupField _ _ _ hf
    have h2 : sizeOf es < sizeOf (Value.vArr r es) := by simp
    simp
    omega
  | vArr ref es2 =>
    exfalso
    simp only [getProp, getField] at h
    rw [show ("elements" == "length") = false from rfl] at h
    rw [show natKey "elements" = none from rfl] at h
    simp at h
  | vNull => exact absurd h (by simp [getProp, getField])
  | vUndef => exact absurd h (by simp [getProp, getField])
  | vBool b => exact absurd h (by simp [getProp, getField])
  | vNum n => exact absurd h (by simp [getProp, getField])
  | vStr s => exact absurd h (by simp [getProp, getField])

/-- State of the source after `pattern.elements` turns out truthy but not an
array: the source first evaluates `value.length < pattern.elements.length`
(false when that `length` is not a number, as when comparing with `undefined`)
and, if that does not exit early, calls `.every` on the non-array, which
throws a TypeError (the `none` result). Strings are the one non-array with a
numeric `length` of their own. -/
def jsLengthNum : Value → Option ℚ
  | Value.vStr s => some s.length
  | Value.vArr _ es => some es.length
  | v =>
    match getProp v "length" with
    | Value.vNum (JSNum.fin q) => some q
    | _ => none

/-- See `jsLengthNum`: outcome of `isArrayMatch` on a truthy non-array `elements`. -/
def arrCrash (valLen : Nat) (pe : Value) : Option Bool :=
  match jsLengthNum pe with
  | some q => if (valLen : ℚ) < q then some false else none
  | none => none

mutual

/-- Source `Match.isDeepMatch(value, pattern)`:
non-composite (or null) values fall back to `===`; an array value against an
array pattern goes to `isArrayMatch`; a non-null object pattern is a subset
constraint over its entries; anything else is no match. `none` is a thrown
TypeError inside the recursion. -/
def isDeepMatch (v : Value) (p : Value) : Option Bool :=
  match v with
  | Value.vObj _ _ _ =>
    match p with
    | Value.vObj _ _ pfs => matchFields v pfs
    | Value.vArr _ pes => matchFieldsIdx v 0 pes
    | _ => some false
  | Value.vArr _ es =>
    if isArrayPattern p then isArrayMatch es p
    else
      match p with
      | Value.vObj _ _ pfs => matchFields v pfs
      | Value.vArr _ pes => matchFieldsIdx v 0 pes
      | _ => some false
  | _ => some (strictEq v p)
termination_by (sizeOf p, 1)
decreasing_by
  all_goals simp_wf
  all_goals first
    | (apply Prod.Lex.right) <;> omega
    | (apply Prod.Lex.left) <;> first
      | omega
      | (simp <;> omega)
      | simp

/-- The `Object.entries(pattern).every(...)` walk of `isDeepMatch` for an
object pattern: every pattern key must exist in the value (`key in objValue`)
and deep-match, short-circuiting at the first failure as `.every` does. -/
def matchFields (v : Value) : List (String × Value) → Option Bool
  | [] => some true
  | (k, sub) :: rest =>
    if hasField v k then
      match isDeepMatch (getProp v k) sub with
      | some true => matchFields v rest
      | some false => some false
      | none => none
    else some false
termination_by l => (sizeOf l, 0)
decreasing_by
  all_goals simp_wf
  all_goals first
    | (apply Prod.Lex.right) <;> omega
    | (apply Prod.Lex.left) <;> first
      | omega
      | (simp <;> omega)
      | simp

/-- The same entries walk when the pattern is itself a JS array, whose
`Object.entries` are its elements keyed by decimal index strings. -/
def matchFieldsIdx (v : Value) (i : Nat) : List Value → Option Bool
  | [] => some true
  | sub :: rest =>
    if hasField v (toString i) then
      match isDeepMatch (getProp v (toString i)) sub with
      | some true => matchFieldsIdx v (i + 1) rest
      | some false => some false
      | none => none
    else some false
termination_by l => (sizeOf l, 0)
decreasing_by
  all_goals simp_wf
  all_goals first
    | (apply Prod.Lex.right) <;> omega
    | (apply Prod.Lex.left) <;> first
      | omega
      | (simp <;> omega)
      | simp

/-- Source `Match.isArrayMatch(value, pattern)`: an exact-length constraint
(compared with `!==`, so present only when not `undefined`), then a truthy
`elements` constraint checked as a prefix with `.every`, else a trivial match. -/
def isArrayMatch (vs : List Value) (p : Value) : Option Bool :=
  if !(isUndef (getProp p "length")) &&
      !(strictEq (Value.vNum (JSNum.fin vs.length)) (getProp p "length")) then
    some false
  else
    match hpe : getProp p "elements" with
    | Value.vArr _ es =>
      if vs.length < es.length then some false else matchElems vs 0 es
    | pe => if truthy pe then arrCrash vs.length pe else some true
termination_by (sizeOf p, 0)
decreasing_by
  apply Prod.Lex.left
  have := sizeOf_getProp_elements hpe
  omega

/-- The `pattern.elements.every((elem, i) => isDeepMatch(value[i], elem))`
prefix walk, short-circuiting at the first failure. -/
def matchElems (vs : List Value) (i : Nat) : List Value → Option Bool
  | [] => some true
  | e :: rest =>
    match isDeepMatch (vs.getD i Value.vUndef) e with
    | some true => matchElems vs (i + 1) rest
    | some false => some false
    | none => none
termination_by l => (sizeOf l, 0)
decreasing_by
  all_goals simp_wf
  all_goals first
    | (apply Prod.Lex.right) <;> omega
    | (apply Prod.Lex.left) <;> first
      | omega
      | (simp <;> omega)
      | simp

end

/-- The state of the source `Match<T>` class: the subject value, the private
`matched` flag (initially false), and the private `exhaustiveCheck` flag
(initially true). -/
structure Match where
  value : Value
  matched : Bool
  exhaustiveCheck : Bool

/-- A handler-invocation event: which handler ran, and the value it received.
Handlers are caller-supplied callbacks, identified here by a number; the
engine never reads anything back from them. -/
abbrev Ev := Nat × Value

/-- The source entry point `match(value) = new Match(value)` (`match` is a
reserved word in Lean). -/
def mkMatch (v : Value) : Match :=
  { value := v, matched := false, exhaustiveCheck := true }

/-- Source `Match.with(pattern, fn)` (`with` is a reserved word in Lean):
fires iff not yet matched and `this.value === pattern`. -/
def Match.withVal (s : Match) (pattern : Value) (h : Nat) : Match × List Ev :=
  if !s.matched && strictEq s.value pattern then
    ({ s with matched := true }, [(h, s.value)])
  else (s, [])

/-- Source `Match.withShape(shape, fn)`: fires iff not yet matched and
`isDeepMatch(this.value, shape)`; `&&` short-circuits, so the matcher (which
can throw, the `none` outcome) runs only when not yet matched. -/
def Match.withShape (s : Match) (shape : Value) (h : Nat) : Option (Match × List Ev) :=
  if s.matched then some (s, [])
  else
    match isDeepMatch s.value shape with
    | some true => some ({ s with matched := true }, [(h, s.value)])
    | some false => some (s, [])
    | none => none

/-- Source `Match.withArray(pattern, fn)`: fires iff not yet matched,
`Array.isArray(this.value)`, and `isArrayMatch(this.value, pattern)`. -/
def Match.withArray (s : Match) (pattern : Value) (h : Nat) : Option (Match × List Ev) :=
  if s.matched then some (s, [])
  else
    match s.value with
    | Value.vArr _ es =>
      match isArrayMatch es pattern with
      | some true => some ({ s with matched := true }, [(h, s.value)])
      | some false => some (s, [])
      | none => none
    | _ => some (s, [])

/-- Source `Match.withAll(patterns, fn)`: fires iff not yet matched and every
caller-supplied predicate holds of the value (`patterns.every`). -/
def Match.withAll (s : Match) (preds : List (Value → Bool)) (h : Nat) : Match × List Ev :=
  if !s.matched && preds.all (fun dp => dp s.value) then
    ({ s with matched := true }, [(h, s.value)])
  else (s, [])

/-- Source `Match.withAny(patterns, fn)`: fires iff not yet matched and some
caller-supplied predicate holds of the value (`patterns.some`). -/
def Match.withAny (s : Match) (preds : List (Value → Bool)) (h : Nat) : Match × List Ev :=
  if !s.matched && preds.any (fun dp => dp s.value) then
    ({ s with matched := true }, [(h, s.value)])
  else (s, [])

/-- Source `Match.withInstance(constructor, fn)`: fires iff not yet matched and
`this.value instanceof constructor`. -/
def Match.withInstance (s : Match) (c : String) (h : Nat) : Match × List Ev :=
  if !s.matched && isInstanceOf s.value c then
    ({ s with matched := true }, [(h, s.value)])
  else (s, [])

/-- Whether the subject satisfies a `withRange(start, end)` clause: it is a
number (`typeof this.value === 'number'`) with `start <= value <= end`,
inclusive; all comparisons are false on NaN. -/
def rangeHit (v : Value) (lo hi : JSNum) : Bool :=
  match v with
  | Value.vNum n => numLe lo n && numLe n hi
  | _ => false

/-- Source `Match.withRange(start, end, fn)`: fires iff the subject is a number
within the inclusive bounds. Unlike every other clause it does NOT consult
`this.matched` before firing; it still sets it. -/
def Match.withRange (s : Match) (lo hi : JSNum) (h : Nat) : Match × List Ev :=
  if rangeHit s.value lo hi then
    ({ s with matched := true }, [(h, s.value)])
  else (s, [])

/-- Source `Match.nonExhaustive()`: clears the `exhaustiveCheck` flag. -/
def Match.nonExhaustive (s : Match) : Match :=
  { s with exhaustiveCheck := false }

/-- Source `Match.otherwise(fn)`: runs the fallback on the subject iff nothing
matched (the fallback does not set `matched`), then throws
"Non-exhaustive pattern matching" iff `exhaustiveCheck` is still set and still
nothing matched. Result: the fallback invocation events, then whether the
error is thrown. -/
def Match.otherwise (s : Match) (h : Nat) : List Ev × Bool :=
  ((if s.matched then [] else [(h, s.value)]), s.exhaustiveCheck && !s.matched)

/-- One chained call on a `Match` session, with its handler id where the source
takes a handler. Mirrors the registration-order call sequence of the fluent
API; clauses are not stored, each call evaluates immediately (`step`). -/
inductive Clause where
  | lit (pattern : Value) (h : Nat)
  | shape (pattern : Value) (h : Nat)
  | arr (pattern : Value) (h : Nat)
  | allOf (preds : List (Value → Bool)) (h : Nat)
  | anyOf (preds : List (Value → Bool)) (h : Nat)
  | inst (c : String) (h : Nat)
  | range (lo hi : JSNum) (h : Nat)
  | nonEx

/-- Execute one chained call against the session state; `none` is an exception
escaping the chain (a TypeError thrown inside the structural matcher). -/
def step (s : Match) : Clause → Option (Match × List Ev)
  | Clause.lit p h => some (s.withVal p h)
  | Clause.shape p h => s.withShape p h
  | Clause.arr p h => s.withArray p h
  | Clause.allOf ps h => some (s.withAll ps h)
  | Clause.anyOf ps h => some (s.withAny ps h)
  | Clause.inst c h => some (s.withInstance c h)
  | Clause.range lo hi h => some (s.withRange lo hi h)
  | Clause.nonEx => some (s.nonExhaustive, [])

/-- Execute a chained call sequence in registration order, accumulating the
handler invocations in order. -/
def runClauses (s : Match) : List Clause → Option (Match × List Ev)
  | [] => some (s, [])
  | c :: cs =>
    match step s c with
    | none => none
    | some (s1, evs) =>
      match runClauses s1 cs with
      | none => none
      | some (s2, evs2) => some (s2, evs ++ evs2)

/-- The clause-registration calls guarded by the `matched` flag: all of them
except `withRange` (and `nonExhaustive`, which registers no clause). -/
def isGuarded : Clause → Bool
  | Clause.lit _ _ => true
  | Clause.shape _ _ => true
  | Clause.arr _ _ => true
  | Clause.allOf _ _ => true
  | Clause.anyOf _ _ => true
  | Clause.inst _ _ => true
  | _ => false

/-- The clause-registration calls (everything except `nonExhaustive`). -/
def isClauseReg : Clause → Bool
  | Clause.nonEx => false
  | _ => true

/-- Whether a chained call is a `withRange` clause. -/
def isRangeClause : Clause → Bool
  | Clause.range _ _ _ => true
  | _ => false

/-- The handler a clause would invoke. -/
def handlerOf : Clause → Nat
  | Clause.lit _ h => h
  | Clause.shape _ h => h
  | Clause.arr _ h => h
  | Clause.allOf _ h => h
  | Clause.anyOf _ h => h
  | Clause.inst _ h => h
  | Clause.range _ _ h => h
  | Clause.nonEx => 0

/-- The predicate a clause evaluates against the subject (`none` when that
evaluation throws). For `withArray` the `Array.isArray` test short-circuits,
for `nonExhaustive` there is no clause so the predicate is never satisfied. -/
def clausePred (v : Value) : Clause → Option Bool
  | Clause.lit p _ => some (strictEq v p)
  | Clause.shape p _ => isDeepMatch v p
  | Clause.arr p _ =>
    match v with
    | Value.vArr _ es => isArrayMatch es p
    | _ => some false
  | Clause.allOf ps _ => some (ps.all (fun dp => dp v))
  | Clause.anyOf ps _ => some (ps.any (fun dp => dp v))
  | Clause.inst c _ => some (isInstanceOf v c)
  | Clause.range lo hi _ => some (rangeHit v lo hi)
  | Clause.nonEx => some false


lemma step_cases {s s' : Match} {c : Clause} {evs : List Ev}
    (h : step s c = some (s', evs)) :
    (s' = s ∧ evs = []) ∨
    (s' = { s with matched := true } ∧ evs = [(handlerOf c, s.value)]) ∨
    (s' = { s with exhaustiveCheck := false } ∧ evs = []) := by
  cases c with
  | lit p hh =>
    simp only [step, Match.withVal, Option.some.injEq] at h
    split at h
    · injection h with h1 h2
      exact Or.inr (Or.inl ⟨h1.symm, h2.symm⟩)
    · injection h with h1 h2
      exact Or.inl ⟨h1.symm, h2.symm⟩
  | shape p hh =>
    simp only [step, Match.withShape] at h
    split at h
    · simp only [Option.some.injEq] at h
      injection h with h1 h2
      exact Or.inl ⟨h1.symm, h2.symm⟩
    · split at h
      · simp only [Option.some.injEq] at h
        injection h with h1 h2
        exact Or.inr (Or.inl ⟨h1.symm, h2.symm⟩)
      · simp only [Option.some.injEq] at h
        injection h with h1 h2
        exact Or.inl ⟨h1.symm, h2.symm⟩
      · exact absurd h (by simp)
  | arr p hh =>
    simp only [step, Match.withArray] at h
    split at h
    · simp only [Option.some.injEq] at h
      injection h with h1 h2
      exact Or.inl ⟨h1.symm, h2.symm⟩
    · split at h
      · split at h
        · simp only [Option.some.injEq] at h
          injection h with h1 h2
          exact Or.inr (Or.inl ⟨h1.symm, h2.symm⟩)
        · simp only [Option.some.injEq] at h
          injection h with h1 h2
          exact Or.inl ⟨h1.symm, h2.symm⟩
        · exact absurd h (by simp)
      · simp only [Option.some.injEq] at h
        injection h with h1 h2
        exact Or.inl ⟨h1.symm, h2.symm⟩
  | allOf ps hh =>
    simp only [step, Match.withAll, Option.some.injEq] at h
    split at h
    · injection h with h1 h2
      exact Or.inr (Or.inl ⟨h1.symm, h2.symm⟩)
    · injection h with h1 h2
      exact Or.inl ⟨h1.symm, h2.symm⟩
  | anyOf ps hh =>
    simp only [step, Match.withAny, Option.some.injEq] at h
    split at h
    · injection h with h1 h2
      exact Or.inr (Or.inl ⟨h1.symm, h2.symm⟩)
    · injection h with h1 h2
      exact Or.inl ⟨h1.symm, h2.symm⟩
  | inst c hh =>
    simp only [step, Match.withInstance, Option.some.injEq] at h
    split at h
    · injection h with h1 h2
      exact Or.inr (Or.inl ⟨h1.symm, h2.symm⟩)
    · injection h with h1 h2
      exact Or.inl ⟨h1.symm, h2.symm⟩
  | range lo hi hh =>
    simp only [step, Match.withRange, Option.some.injEq] at h
    split at h
    · injection h with h1 h2
      exact Or.inr (Or.inl ⟨h1.symm, h2.symm⟩)
    · injection h with h1 h2
      exact Or.inl ⟨h1.symm, h2.symm⟩
  | nonEx =>
    simp only [step, Match.nonExhaustive, Option.some.injEq] at h
    injection h with h1 h2
    exact Or.inr (Or.inr ⟨h1.symm, h2.symm⟩)

lemma step_value_eq {s s' : Match} {c : Clause} {evs : List Ev}
    (h : step s c = some (s', evs)) : s'.value = s.value := by
  rcases step_cases h with ⟨h1, _⟩ | ⟨h1, _⟩ | ⟨h1, _⟩ <;> rw [h1]

lemma step_matched_mono {s s' : Match} {c : Clause} {evs : List Ev}
    (h : step s c = some (s', evs)) (hm : s.matched = true) : s'.matched = true := by
  rcases step_cases h with ⟨h1, _⟩ | ⟨h1, _⟩ | ⟨h1, _⟩ <;> rw [h1] <;> simp [hm]

lemma step_exh_mono {s s' : Match} {c : Clause} {evs : List Ev}
    (h : step s c = some (s', evs)) (he : s.exhaustiveCheck = false) :
    s'.exhaustiveCheck = false := by
  rcases step_cases h with ⟨h1, _⟩ | ⟨h1, _⟩ | ⟨h1, _⟩ <;> rw [h1] <;> simp [he]

lemma step_guarded_matched {s : Match} {c : Clause} (hg : isGuarded c = true)
    (hm : s.matched = true) : step s c = some (s, []) := by
  cases c <;> simp [isGuarded] at hg <;>
    simp [step, Match.withVal, Match.withShape, Match.withArray, Match.withAll,
      Match.withAny, Match.withInstance, hm]

lemma step_guarded_fire {s : Match} {c : Clause} (hg : isGuarded c = true)
    (hm : s.matched = false) (hp : clausePred s.value c = some true) :
    step s c = some ({ s with matched := true }, [(handlerOf c, s.value)]) := by
  cases c <;> simp [isGuarded] at hg <;>
    simp only [clausePred, Option.some.injEq] at hp
  case lit p h =>
    simp [step, Match.withVal, hm, hp, handlerOf]
  case shape p h =>
    simp [step, Match.withShape, hm, hp, handlerOf]
  case arr p h =>
    cases hv : s.value <;> rw [hv] at hp <;> (try simp at hp)
    case vArr r es =>
      simp [step, Match.withArray, hm, hv, hp, handlerOf]
  case allOf ps h =>
    simp [step, Match.withAll, hm, hp, handlerOf]
  case anyOf ps h =>
    simp [step, Match.withAny, hm, hp, handlerOf]
  case inst c h =>
    simp [step, Match.withInstance, hm, hp, handlerOf]

lemma step_guarded_skip {s : Match} {c : Clause} (hg : isGuarded c = true)
    (hm : s.matched = false) (hp : clausePred s.value c = some false) :
    step s c = some (s, []) := by
  cases c <;> simp [isGuarded] at hg <;>
    simp only [clausePred, Option.some.injEq] at hp
  case lit p h =>
    simp [step, Match.withVal, hm, hp]
  case shape p h =>
    simp [step, Match.withShape, hm, hp]
  case arr p h =>
    cases hv : s.value <;> rw [hv] at hp <;>
      simp [step, Match.withArray, hm, hv] <;> (try simp at hp) <;> simp [hp]
  case allOf ps h =>
    simp [step, Match.withAll, hm, hp]
  case anyOf ps h =>
    simp [step, Match.withAny, hm, hp]
  case inst c h =>
    simp [step, Match.withInstance, hm, hp]

lemma step_guarded_crash {s : Match} {c : Clause} (hg : isGuarded c = true)
    (hm : s.matched = false) (hp : clausePred s.value c = none) :
    step s c = none := by
  cases c <;> simp [isGuarded] at hg <;> simp only [clausePred] at hp
  case lit p h => exact absurd hp (by simp)
  case shape p h =>
    simp [step, Match.withShape, hm, hp]
  case arr p h =>
    cases hv : s.value <;> rw [hv] at hp <;> (try simp at hp)
    case vArr r es =>
      simp [step, Match.withArray, hm, hv, hp]
  case allOf ps h => exact absurd hp (by simp)
  case anyOf ps h => exact absurd hp (by simp)
  case inst c h => exact absurd hp (by simp)

lemma runClauses_cons_some {s s1 : Match} {c : Clause} {cs : List Clause} {evs1 : List Ev}
    (hs : step s c = some (s1, evs1)) :
    runClauses s (c :: cs) =
      match runClauses s1 cs with
      | none => none
      | some (s2, evs2) => some (s2, evs1 ++ evs2) := by
  simp only [runClauses, hs]

lemma runClauses_cons_none {s : Match} {c : Clause} {cs : List Clause}
    (hs : step s c = none) : runClauses s (c :: cs) = none := by
  simp only [runClauses, hs]

lemma runClauses_value_eq {s s' : Match} {cs : List Clause} {evs : List Ev}
    (h : runClauses s cs = some (s', evs)) : s'.value = s.value := by
  induction cs generalizing s s' evs with
  | nil =>
    simp only [runClauses, Option.some.injEq] at h
    injection h with h1 _
    rw [← h1]
  | cons c cs ih =>
    cases hs : step s c with
    | none => rw [runClauses_cons_none hs] at h; simp at h
    | some pr =>
      obtain ⟨s1, evs1⟩ := pr
      rw [runClauses_cons_some hs] at h
      cases hr : runClauses s1 cs with
      | none => rw [hr] at h; simp at h
      | some pr2 =>
        obtain ⟨s2, evs2⟩ := pr2
        rw [hr] at h
        simp only [Option.some.injEq] at h
        injection h with h1 _
        rw [← h1]
        rw [ih hr]
        exact step_value_eq hs

lemma runClauses_exh_mono {s s' : Match} {cs : List Clause} {evs : List Ev}
    (h : runClauses s cs = some (s', evs)) (he : s.exhaustiveCheck = false) :
    s'.exhaustiveCheck = false := by
  induction cs generalizing s s' evs with
  | nil =>
    simp only [runClauses, Option.some.injEq] at h
    injection h with h1 _
    rw [← h1]
    exact he
  | cons c cs ih =>
    cases hs : step s c with
    | none => rw [runClauses_cons_none hs] at h; simp at h
    | some pr =>
      obtain ⟨s1, evs1⟩ := pr
      rw [runClauses_cons_some hs] at h
      cases hr : runClauses s1 cs with
      | none => rw [hr] at h; simp at h
      | some pr2 =>
        obtain ⟨s2, evs2⟩ := pr2
        rw [hr] at h
        simp only [Option.some.injEq] at h
        injection h with h1 _
        rw [← h1]
        exact ih hr (step_exh_mono hs he)

lemma runClauses_all_guarded_matched {s : Match} {cs : List Clause}
    (hg : ∀ c ∈ cs, isGuarded c = true) (hm : s.matched = true) :
    runClauses s cs = some (s, []) := by
  induction cs with
  | nil => rfl
  | cons c cs ih =>
    rw [runClauses_cons_some (step_guarded_matched (hg c (by simp)) hm),
      ih (fun c2 h2 => hg c2 (by simp [h2]))]
    rfl

lemma runClauses_guarded_spec {cs : List Clause} {s s' : Match} {evs : List Ev}
    (hg : ∀ c ∈ cs, isGuarded c = true) (hm : s.matched = false)
    (h : runClauses s cs = some (s', evs)) :
    (evs = [] ∧ s'.matched = false ∧ ∀ c ∈ cs, clausePred s.value c = some false) ∨
    (∃ pre c post, cs = pre ++ c :: post ∧ evs = [(handlerOf c, s.value)] ∧
      clausePred s.value c = some true ∧
      (∀ c2 ∈ pre, clausePred s.value c2 = some false) ∧ s'.matched = true) := by
  induction cs generalizing evs with
  | nil =>
    simp only [runClauses, Option.some.injEq] at h
    injection h with h1 h2
    left
    refine ⟨h2.symm, ?_, by simp⟩
    rw [← h1]
    exact hm
  | cons c cs ih =>
    have hgc : isGuarded c = true := hg c (by simp)
    cases hcp : clausePred s.value c with
    | none =>
      rw [runClauses_cons_none (step_guarded_crash hgc hm hcp)] at h
      simp at h
    | some b =>
      cases b with
      | false =>
        rw [runClauses_cons_some (step_guarded_skip hgc hm hcp)] at h
        cases hr : runClauses s cs with
        | none => rw [hr] at h; simp at h
        | some pr =>
          obtain ⟨s2, evs2⟩ := pr
          rw [hr] at h
          simp only [Option.some.injEq] at h
          injection h with h1 h2
          subst h1
          rcases ih (fun c2 hc2 => hg c2 (by simp [hc2])) hr with
            ⟨he, hm2, hall⟩ | ⟨pre, c2, post, hsplit, hevs, hcp2, hpre, hm2⟩
          · left
            refine ⟨?_, hm2, ?_⟩
            · rw [← h2, he]
              rfl
            · intro c3 hc3
              rcases List.mem_cons.mp hc3 with h3 | h3
              · rw [h3]; exact hcp
              · exact hall c3 h3
          · right
            refine ⟨c :: pre, c2, post, by rw [hsplit]; rfl, ?_, hcp2, ?_, hm2⟩
            · rw [← h2, hevs]
              rfl
            · intro c3 hc3
              rcases List.mem_cons.mp hc3 with h3 | h3
              · rw [h3]; exact hcp
              · exact hpre c3 h3
      | true =>
        rw [runClauses_cons_some (step_guarded_fire hgc hm hcp)] at h
        rw [runClauses_all_guarded_matched
          (fun c2 hc2 => hg c2 (by simp [hc2])) (by simp)] at h
        simp only [Option.some.injEq] at h
        injection h with h1 h2
        right
        refine ⟨[], c, cs, by simp, ?_, hcp, by simp, ?_⟩
        · rw [← h2]
          rfl
        · rw [← h1]

lemma matchFields_iff {v : Value} {l : List (String × Value)} :
    matchFields v l = some true ↔
    ∀ e ∈ l, hasField v e.1 = true ∧ isDeepMatch (getProp v e.1) e.2 = some true := by
  induction l with
  | nil => simp [matchFields]
  | cons kv rest ih =>
    obtain ⟨k, sub⟩ := kv
    by_cases hf : hasField v k = true
    · cases hd : isDeepMatch (getProp v k) sub with
      | none => simp [matchFields, hf, hd]
      | some b =>
        cases b with
        | false => simp [matchFields, hf, hd]
        | true => simp [matchFields, hf, hd, ih]
    · simp [matchFields, hf]

lemma matchElems_iff {vs es : List Value} : ∀ {i : Nat},
    (matchElems vs i es = some true ↔
      ∀ j, j < es.length →
        isDeepMatch (vs.getD (i + j) Value.vUndef) (es.getD j Value.vUndef) = some true) := by
  induction es with
  | nil => intro i; simp [matchElems]
  | cons e rest ih =>
    intro i
    cases hd : isDeepMatch (vs.getD i Value.vUndef) e with
    | none =>
      simp only [matchElems, hd]
      constructor
      · intro h; exact absurd h (by simp)
      · intro h
        have h0 := h 0 (by simp)
        rw [Nat.add_zero, show (e :: rest).getD 0 Value.vUndef = e from rfl] at h0
        rw [hd] at h0
        exact absurd h0 (by simp)
    | some b =>
      cases b with
      | false =>
        simp only [matchElems, hd]
        constructor
        · intro h; exact absurd h (by simp)
        · intro h
          have h0 := h 0 (by simp)
          rw [Nat.add_zero, show (e :: rest).getD 0 Value.vUndef = e from rfl] at h0
          rw [hd] at h0
          exact absurd h0 (by simp)
      | true =>
        simp only [matchElems, hd]
        rw [ih]
        constructor
        · intro h j hj
          cases j with
          | zero =>
            rw [Nat.add_zero]
            simpa using hd
          | succ j2 =>
            have := h j2 (by simpa using hj)
            rw [show i + 1 + j2 = i + (j2 + 1) by omega] at this
            simpa using this
        · intro h j hj
          have := h (j + 1) (by simpa using hj)
          rw [show i + (j + 1) = i + 1 + j by omega] at this
          simpa using this

lemma runClauses_nonEx_exh {cs : List Clause} {s s' : Match} {evs : List Ev}
    (hmem : Clause.nonEx ∈ cs) (h : runClauses s cs = some (s', evs)) :
    s'.exhaustiveCheck = false := by
  induction cs generalizing s s' evs with
  | nil => simp at hmem
  | cons c cs ih =>
    cases hs : step s c with
    | none => rw [runClauses_cons_none hs] at h; simp at h
    | some pr =>
      obtain ⟨s1, evs1⟩ := pr
      rw [runClauses_cons_some hs] at h
      cases hr : runClauses s1 cs with
      | none => rw [hr] at h; simp at h
      | some pr2 =>
        obtain ⟨s2, evs2⟩ := pr2
        rw [hr] at h
        simp only [Option.some.injEq] at h
        injection h with h1 h2
        subst h1
        rcases List.mem_cons.mp hmem with hc | hc
        · have hs1 : s1.exhaustiveCheck = false := by
            rw [← hc] at hs
            simp only [step, Option.some.injEq] at hs
            injection hs with h3 _
            rw [← h3]
            rfl
          exact runClauses_exh_mono hr hs1
        · exact ih hc hr

lemma run_matched_nonrange {cs : List Clause} :
    ∀ s : Match, s.matched = true → (∀ c ∈ cs, isRangeClause c = false) →
    ∃ s2, runClauses s cs = some (s2, []) ∧ s2.matched = true ∧ s2.value = s.value := by
  induction cs with
  | nil => exact fun s hm _ => ⟨s, rfl, hm, rfl⟩
  | cons c cs ih =>
    intro s hm hnr
    have hstep : ∃ s1, step s c = some (s1, []) ∧ s1.matched = true ∧ s1.value = s.value := by
      cases c with
      | range lo hi hh =>
        exact absurd (hnr (Clause.range lo hi hh) (List.mem_cons_self _ _))
          (by simp [isRangeClause])
      | nonEx => exact ⟨s.nonExhaustive, rfl, hm, rfl⟩
      | lit p hh => exact ⟨s, step_guarded_matched (by simp [isGuarded]) hm, hm, rfl⟩
      | shape p hh => exact ⟨s, step_guarded_matched (by simp [isGuarded]) hm, hm, rfl⟩
      | arr p hh => exact ⟨s, step_guarded_matched (by simp [isGuarded]) hm, hm, rfl⟩
      | allOf ps hh => exact ⟨s, step_guarded_matched (by simp [isGuarded]) hm, hm, rfl⟩
      | anyOf ps hh => exact ⟨s, step_guarded_matched (by simp [isGuarded]) hm, hm, rfl⟩
      | inst cn hh => exact ⟨s, step_guarded_matched (by simp [isGuarded]) hm, hm, rfl⟩
    obtain ⟨s1, hs, hm1, hv1⟩ := hstep
    obtain ⟨s2, hrun, hm2, hv2⟩ := ih s1 hm1 (fun c2 h2 => hnr c2 (by simp [h2]))
    refine ⟨s2, ?_, hm2, by rw [hv2, hv1]⟩
    rw [runClauses_cons_some hs, hrun]
    rfl

/-- Whether a value is composite in the sense of the matcher's first guard:
`typeof value === 'object' && value !== null`, i.e. an object or an array. -/
def isComposite : Value → Bool
  | Value.vObj _ _ _ => true
  | Value.vArr _ _ => true
  | _ => false

/-- Whether a value is a JS array (`Array.isArray`). -/
def isArrayValue : Value → Bool
  | Value.vArr _ _ => true
  | _ => false

/-- A well-typed source `ArrayPattern` literal: an object with the optional
`length` and `elements` fields of the TS interface. -/
def mkAP (len : Option JSNum) (els : Option (List Value)) : Value :=
  Value.vObj 0 []
    ((match len with
      | some q => [("length", Value.vNum q)]
      | none => []) ++
     (match els with
      | some es => [("elements", Value.vArr 0 es)]
      | none => []))

/-- The pattern's length constraint is absent or satisfied
(`pattern.length !== undefined && value.length !== pattern.length` fails). -/
def lenOk (vs : List Value) : Option JSNum → Bool
  | none => true
  | some q => strictEqNum (JSNum.fin vs.length) q

lemma mkAP_length (len : Option JSNum) (els : Option (List Value)) :
    getProp (mkAP len els) "length" =
      (match len with | some q => Value.vNum q | none => Value.vUndef) := by
  cases len <;> cases els <;> rfl

lemma mkAP_elements (len : Option JSNum) (els : Option (List Value)) :
    getProp (mkAP len els) "elements" =
      (match els with | some es => Value.vArr 0 es | none => Value.vUndef) := by
  cases len <;> cases els <;> rfl

/-- Shorthand for a finite JS number value. -/
def numV (q : ℚ) : Value :=
  Value.vNum (JSNum.fin q)

/-- Whether a clause-registration call's firing condition is satisfied: for
`withRange` the bounds test alone (the `matched` flag is not consulted); for
the guarded clauses, false whenever the session is already resolved (their
predicate is then not even evaluated), else the clause predicate; `none` when
evaluating the predicate throws. -/
def fires (s : Match) : Clause → Option Bool
  | Clause.range lo hi _ => some (rangeHit s.value lo hi)
  | Clause.nonEx => some false
  | c => if s.matched then some false else clausePred s.value c

/-- C8: `matchAll` (source `withAll`) with an empty predicate sequence always
fires on an unresolved session (vacuous AND), while `matchAny` (source
`withAny`) with an empty predicate sequence never fires (vacuous OR). -/
theorem claim8_vacuous_all_any {s : Match} {h : Nat} (hm : s.matched = false) :
    s.withAll [] h = ({ s with matched := true }, [(h, s.value)]) ∧
    s.withAny [] h = (s, []) := by
  constructor
  · simp [Match.withAll, hm]
  · simp [Match.withAny, hm]

/-- Witness for C8 at a concrete session. -/
theorem claim8_witness :
    (mkMatch Value.vNull).withAll [] 1 =
      ({ value := Value.vNull, matched := true, exhaustiveCheck := true }, [(1, Value.vNull)]) ∧
    (mkMatch Value.vNull).withAny [] 2 = (mkMatch Value.vNull, []) :=
  claim8_vacuous_all_any rfl

/-- C9: for a NaN subject, `matchLiteral(NaN, h)` (source `with(NaN, fn)`)
never fires, because `===` on numbers is never true for NaN. -/
theorem claim9_nan_never_matches {s : Match} {h : Nat}
    (hv : s.value = Value.vNum JSNum.nan) :
    s.withVal (Value.vNum JSNum.nan) h = (s, []) := by
  simp [Match.withVal, hv, strictEq, strictEqNum]

/-- Witness for C9 at a concrete session. -/
theorem claim9_witness :
    (mkMatch (Value.vNum JSNum.nan)).withVal (Value.vNum JSNum.nan) 1 =
      (mkMatch (Value.vNum JSNum.nan), []) :=
  claim9_nan_never_matches rfl

/-- C10: a clause-registration call whose firing condition is unsatisfied is a
complete no-op (no handler, the identical session state returned for
chaining); and no operation of the class ever changes the subject value or
resets the `matched` flag from true back to false. -/
theorem claim10_frame_effects :
    (∀ (s : Match) (c : Clause), isClauseReg c = true → fires s c = some false →
      step s c = some (s, [])) ∧
    (∀ (s s' : Match) (c : Clause) (evs : List Ev), step s c = some (s', evs) →
      s'.value = s.value ∧ (s.matched = true → s'.matched = true)) := by
  constructor
  · intro s c hreg hf
    cases c with
    | nonEx => simp [isClauseReg] at hreg
    | range lo hi hh =>
      simp only [fires, Option.some.injEq] at hf
      simp [step, Match.withRange, hf]
    | lit p hh =>
      by_cases hm : s.matched = true
      · exact step_guarded_matched (by simp [isGuarded]) hm
      · simp only [fires] at hf
        rw [if_neg hm] at hf
        exact step_guarded_skip (by simp [isGuarded]) (by simpa using hm) hf
    | shape p hh =>
      by_cases hm : s.matched = true
      · exact step_guarded_matched (by simp [isGuarded]) hm
      · simp only [fires] at hf
        rw [if_neg hm] at hf
        exact step_guarded_skip (by simp [isGuarded]) (by simpa using hm) hf
    | arr p hh =>
      by_cases hm : s.matched = true
      · exact step_guarded_matched (by simp [isGuarded]) hm
      · simp only [fires] at hf
        rw [if_neg hm] at hf
        exact step_guarded_skip (by simp [isGuarded]) (by simpa using hm) hf
    | allOf ps hh =>
      by_cases hm : s.matched = true
      · exact step_guarded_matched (by simp [isGuarded]) hm
      · simp only [fires] at hf
        rw [if_neg hm] at hf
        exact step_guarded_skip (by simp [isGuarded]) (by simpa using hm) hf
    | anyOf ps hh =>
      by_cases hm : s.matched = true
      · exact step_guarded_matched (by simp [isGuarded]) hm
      · simp only [fires] at hf
        rw [if_neg hm] at hf
        exact step_guarded_skip (by simp [isGuarded]) (by simpa using hm) hf
    | inst cn hh =>
      by_cases hm : s.matched = true
      · exact step_guarded_matched (by simp [isGuarded]) hm
      · simp only [fires] at hf
        rw [if_neg hm] at hf
        exact step_guarded_skip (by simp [isGuarded]) (by simpa using hm) hf
  · intro s s' c evs h
    exact ⟨step_value_eq h, step_matched_mono h⟩

/-- Witness for C10 at a concrete non-matching literal clause. -/
theorem claim10_witness :
    step (mkMatch (numV 7)) (Clause.lit (numV 1) 3) = some (mkMatch (numV 7), []) ∧
    (mkMatch (numV 7)).value = (mkMatch (numV 7)).value := by
  have h1 := claim10_frame_effects.1 (mkMatch (numV 7)) (Clause.lit (numV 1) 3)
    rfl (by simp [fires, mkMatch, clausePred, numV, strictEq, strictEqNum])
  exact ⟨h1, (claim10_frame_effects.2 _ _ _ [] h1).1⟩

lemma rangeHit_iff {v : Value} {lo hi : JSNum} :
    rangeHit v lo hi = true ↔
    ∃ n, v = Value.vNum n ∧ numLe lo n = true ∧ numLe n hi = true := by
  cases v <;> simp [rangeHit]

/-- C2: `matchRange` (source `withRange`) fires iff the subject is a number
inside the inclusive bounds, never consulting the `matched` flag — stated by an
unconditional equation over every session state — so
`beginMatch(5).matchLiteral(5, h1).matchRange(1, 10, h2).resolve(h3)` invokes
both h1 and h2 (and not h3), and overlapping range clauses all fire; bounds are
inclusive: `matchRange(1,3)` accepts exactly 1, 2, 3 among 0..4. -/
theorem claim2_range_fires_unguarded :
    (∀ (s : Match) (lo hi : JSNum) (h : Nat),
      s.withRange lo hi h =
        (if rangeHit s.value lo hi then { s with matched := true } else s,
         if rangeHit s.value lo hi then [(h, s.value)] else [])) ∧
    (∀ (s : Match) (lo hi : JSNum) (h : Nat),
      ((s.withRange lo hi h).2 = [(h, s.value)] ↔
        ∃ n, s.value = Value.vNum n ∧ numLe lo n = true ∧ numLe n hi = true)) ∧
    (rangeHit (numV 0) (JSNum.fin 1) (JSNum.fin 3) = false ∧
     rangeHit (numV 1) (JSNum.fin 1) (JSNum.fin 3) = true ∧
     rangeHit (numV 2) (JSNum.fin 1) (JSNum.fin 3) = true ∧
     rangeHit (numV 3) (JSNum.fin 1) (JSNum.fin 3) = true ∧
     rangeHit (numV 4) (JSNum.fin 1) (JSNum.fin 3) = false) ∧
    runClauses (mkMatch (numV 5))
      [Clause.lit (numV 5) 1, Clause.range (JSNum.fin 1) (JSNum.fin 10) 2] =
      some ({ value := numV 5, matched := true, exhaustiveCheck := true },
        [(1, numV 5), (2, numV 5)]) ∧
    Match.otherwise { value := numV 5, matched := true, exhaustiveCheck := true } 3 =
      ([], false) ∧
    runClauses (mkMatch (numV 5))
      [Clause.range (JSNum.fin 1) (JSNum.fin 10) 4,
       Clause.range (JSNum.fin 4) (JSNum.fin 6) 5] =
      some ({ value := numV 5, matched := true, exhaustiveCheck := true },
        [(4, numV 5), (5, numV 5)]) := by
  refine ⟨?_, ?_, ?_, ?_, ?_, ?_⟩
  · intro s lo hi h
    by_cases hr : rangeHit s.value lo hi = true
    · simp [Match.withRange, hr]
    · simp only [Bool.not_eq_true] at hr
      simp [Match.withRange, hr]
  · intro s lo hi h
    by_cases hr : rangeHit s.value lo hi = true
    · rw [show (s.withRange lo hi h).2 = [(h, s.value)] from by simp [Match.withRange, hr]]
      simp only [true_iff, iff_true]
      exact rangeHit_iff.mp hr
    · have hrf : rangeHit s.value lo hi = false := by simpa using hr
      rw [show (s.withRange lo hi h).2 = [] from by simp [Match.withRange, hrf]]
      constructor
      · intro habs
        exact absurd habs (by simp)
      · rintro ⟨n, hn, hlo, hhi⟩
        exact absurd (rangeHit_iff.mpr ⟨n, hn, hlo, hhi⟩) (by simp [hrf])
  · refine ⟨?_, ?_, ?_, ?_, ?_⟩ <;> rfl
  · rfl
  · rfl
  · rfl

/-- C3: the terminal `resolve(fallback)` (source `otherwise`) invokes the
fallback iff the session is unresolved, the fallback never sets `matched`
(the throw decision still sees `matched = false`), and with exhaustiveness
still enabled it therefore runs the fallback and then raises
NonExhaustiveMatch. -/
theorem claim3_otherwise_fallback {s : Match} {h : Nat} :
    ((Match.otherwise s h).1 = [(h, s.value)] ↔ s.matched = false) ∧
    ((Match.otherwise s h).2 = true ↔ (s.exhaustiveCheck = true ∧ s.matched = false)) ∧
    (s.matched = false → s.exhaustiveCheck = true →
      Match.otherwise s h = ([(h, s.value)], true)) := by
  refine ⟨?_, ?_, ?_⟩
  · cases hm : s.matched <;> simp [Match.otherwise, hm]
  · cases hm : s.matched <;> simp [Match.otherwise, hm]
  · intro hm he
    simp [Match.otherwise, hm, he]

/-- Witness for C3: `beginMatch(7).matchLiteral(1, h).resolve(fallback)`
invokes the fallback and then raises the error. -/
theorem claim3_witness :
    runClauses (mkMatch (numV 7)) [Clause.lit (numV 1) 1] = some (mkMatch (numV 7), []) ∧
    Match.otherwise (mkMatch (numV 7)) 2 = ([(2, numV 7)], true) := by
  constructor
  · rfl
  · exact claim3_otherwise_fallback.2.2 rfl rfl

/-- C1: over any registration sequence of the six guarded clause kinds on one
session, at most one handler runs; if one runs it belongs to the first clause
(in registration order) whose predicate is satisfied, all earlier predicates
being unsatisfied; firing sets `matched`; and a guarded clause on an
already-resolved session is a no-op that does not evaluate its predicate (so
it cannot even throw). -/
theorem claim1_first_match_wins {v : Value} {cs : List Clause} {s' : Match} {evs : List Ev}
    (hg : ∀ c ∈ cs, isGuarded c = true)
    (hrun : runClauses (mkMatch v) cs = some (s', evs)) :
    evs.length ≤ 1 ∧
    (∀ e ∈ evs, ∃ pre c post, cs = pre ++ c :: post ∧ e = (handlerOf c, v) ∧
      clausePred v c = some true ∧ ∀ c2 ∈ pre, clausePred v c2 = some false) ∧
    (evs ≠ [] → s'.matched = true) ∧
    (∀ (t : Match) (c : Clause), isGuarded c = true → t.matched = true →
      step t c = some (t, [])) := by
  have hspec := runClauses_guarded_spec hg (show (mkMatch v).matched = false from rfl) hrun
  rcases hspec with ⟨he, _, _⟩ | ⟨pre, c, post, hsplit, hevs, hcp, hpre, hm⟩
  · subst he
    exact ⟨by simp, by simp, by simp, fun t c hgc hmt => step_guarded_matched hgc hmt⟩
  · subst hevs
    refine ⟨by simp, ?_, by simp [hm], fun t c2 hgc hmt => step_guarded_matched hgc hmt⟩
    intro e hme
    simp only [List.mem_singleton] at hme
    exact ⟨pre, c, post, hsplit, hme, hcp, hpre⟩

/-- Witness for C1: with subject 5 and clauses `with 6`, `with 5`, `with 5`,
exactly the second clause's handler runs. -/
theorem claim1_witness :
    [((2 : Nat), numV 5)].length ≤ 1 ∧
    ∃ pre c post,
      [Clause.lit (numV 6) 1, Clause.lit (numV 5) 2, Clause.lit (numV 5) 3] =
        pre ++ c :: post ∧
      ((2 : Nat), numV 5) = (handlerOf c, numV 5) ∧
      clausePred (numV 5) c = some true ∧
      ∀ c2 ∈ pre, clausePred (numV 5) c2 = some false := by
  have hrun : runClauses (mkMatch (numV 5))
      [Clause.lit (numV 6) 1, Clause.lit (numV 5) 2, Clause.lit (numV 5) 3] =
      some ({ value := numV 5, matched := true, exhaustiveCheck := true }, [(2, numV 5)]) := rfl
  have hmain := claim1_first_match_wins (by simp [isGuarded]) hrun
  exact ⟨hmain.1, hmain.2.1 (2, numV 5) (by simp)⟩

/-- C6: once `disableExhaustiveness` (source `nonExhaustive`) has been called
anywhere in the chain, the terminal call never raises the error, while the
fallback still runs when nothing matched. -/
theorem claim6_disable_exhaustiveness {v : Value} {cs : List Clause} {s' : Match}
    {evs : List Ev} {h : Nat}
    (hmem : Clause.nonEx ∈ cs)
    (hrun : runClauses (mkMatch v) cs = some (s', evs)) :
    (Match.otherwise s' h).2 = false ∧
    (s'.matched = false → (Match.otherwise s' h).1 = [(h, v)]) := by
  have hexh := runClauses_nonEx_exh hmem hrun
  have hval : s'.value = v := runClauses_value_eq hrun
  constructor
  · simp [Match.otherwise, hexh]
  · intro hm
    simp [Match.otherwise, hm, hval]

/-- Witness for C6: `beginMatch(7).disableExhaustiveness().matchLiteral(1, h).resolve(fallback)`
runs the fallback and raises no error. -/
theorem claim6_witness :
    (Match.otherwise { value := numV 7, matched := false, exhaustiveCheck := false } 2).2 =
      false ∧
    (Match.otherwise { value := numV 7, matched := false, exhaustiveCheck := false } 2).1 =
      [(2, numV 7)] := by
  have hrun : runClauses (mkMatch (numV 7)) [Clause.nonEx, Clause.lit (numV 1) 1] =
      some ({ value := numV 7, matched := false, exhaustiveCheck := false }, []) := rfl
  have hmain := claim6_disable_exhaustiveness (h := 2) (by simp) hrun
  exact ⟨hmain.1, hmain.2 rfl⟩

/-- C7 (implicit): a firing `withRange` clause sets `matched` — even on an
already-resolved session — so afterwards no non-range clause's handler can run
and the terminal call neither invokes the fallback nor raises the error. -/
theorem claim7_range_sets_resolved {s : Match} {lo hi : JSNum} {h : Nat}
    (hfire : rangeHit s.value lo hi = true) :
    (s.withRange lo hi h).1.matched = true ∧
    (∀ cs : List Clause, (∀ c ∈ cs, isRangeClause c = false) →
      ∃ s2, runClauses (s.withRange lo hi h).1 cs = some (s2, []) ∧
        ∀ h2 : Nat, Match.otherwise s2 h2 = ([], false)) := by
  have hstep : s.withRange lo hi h = ({ s with matched := true }, [(h, s.value)]) := by
    simp [Match.withRange, hfire]
  have hm1 : (s.withRange lo hi h).1.matched = true := by rw [hstep]
  refine ⟨hm1, ?_⟩
  intro cs hnr
  obtain ⟨s2, hrun2, hm2, _⟩ := run_matched_nonrange ((s.withRange lo hi h).1) hm1 hnr
  refine ⟨s2, hrun2, ?_⟩
  intro h2
  simp [Match.otherwise, hm2]

/-- Witness for C7 on a session already resolved before the range clause. -/
theorem claim7_witness :
    (({ value := numV 5, matched := true, exhaustiveCheck := true } : Match).withRange
      (JSNum.fin 1) (JSNum.fin 10) 2).1.matched = true ∧
    ∃ s2, runClauses
        (({ value := numV 5, matched := true, exhaustiveCheck := true } : Match).withRange
          (JSNum.fin 1) (JSNum.fin 10) 2).1 [Clause.lit (numV 5) 9] = some (s2, []) ∧
      ∀ h2 : Nat, Match.otherwise s2 h2 = ([], false) := by
  have hmain := @claim7_range_sets_resolved
    { value := numV 5, matched := true, exhaustiveCheck := true }
    (JSNum.fin 1) (JSNum.fin 10) 2 rfl
  exact ⟨hmain.1, hmain.2 [Clause.lit (numV 5) 9] (by simp [isRangeClause])⟩

lemma deepMatch_obj_pattern_iff {v : Value} {pr : Nat} {pc : List String}
    {pfs : List (String × Value)}
    (hcomp : isComposite v = true)
    (hna : isArrayValue v = true → isArrayPattern (Value.vObj pr pc pfs) = false) :
    (isDeepMatch v (Value.vObj pr pc pfs) = some true ↔
      ∀ e ∈ pfs, hasField v e.1 = true ∧ isDeepMatch (getProp v e.1) e.2 = some true) := by
  cases v with
  | vObj r c fs =>
    rw [show isDeepMatch (Value.vObj r c fs) (Value.vObj pr pc pfs) =
        matchFields (Value.vObj r c fs) pfs from by simp [isDeepMatch]]
    exact matchFields_iff
  | vArr r es =>
    have harr : isArrayPattern (Value.vObj pr pc pfs) = false := hna rfl
    rw [show isDeepMatch (Value.vArr r es) (Value.vObj pr pc pfs) =
        matchFields (Value.vArr r es) pfs from by simp [isDeepMatch, harr]]
    exact matchFields_iff
  | vNull => simp [isComposite] at hcomp
  | vUndef => simp [isComposite] at hcomp
  | vBool b => simp [isComposite] at hcomp
  | vNum n => simp [isComposite] at hcomp
  | vStr st => simp [isComposite] at hcomp

/-- C4, counterexample to the claim as stated: it quantifies over EVERY value,
but for the non-composite value 3 and the empty object pattern the claimed
right-hand side holds vacuously while `isDeepMatch` falls back to `===` and
rejects (3 is not identical to an object). -/
theorem claim4_counterexample :
    isDeepMatch (numV 3) (Value.vObj 0 [] []) ≠ some true ∧
    ∀ e ∈ ([] : List (String × Value)),
      hasField (numV 3) e.1 = true ∧
      isDeepMatch (getProp (numV 3) e.1) e.2 = some true := by
  constructor
  · simp [isDeepMatch, numV, strictEq]
  · simp

/-- C4, amended: for every COMPOSITE value and object pattern — excluding the
combination of an array value with an array-pattern-shaped object (a `length`
or `elements` key), which `isDeepMatch` routes to `isArrayMatch` instead —
acceptance holds iff every pattern entry's key exists in the value and its
sub-pattern deep-matches the corresponding property; keys of the value absent
from the pattern are ignored, and the empty object pattern matches every
composite value. Also the claim's own examples: pattern `{type:"user"}`
matches `{type:"user", name:"Ann", age:30}` while `{type:"admin"}` does not. -/
theorem claim4_shape_subset_amended :
    (∀ (v : Value) (pr : Nat) (pc : List String) (pfs : List (String × Value)),
      isComposite v = true →
      (isArrayValue v = true → isArrayPattern (Value.vObj pr pc pfs) = false) →
      (isDeepMatch v (Value.vObj pr pc pfs) = some true ↔
        ∀ e ∈ pfs, hasField v e.1 = true ∧
          isDeepMatch (getProp v e.1) e.2 = some true)) ∧
    (∀ (v : Value) (pr : Nat) (pc : List String), isComposite v = true →
      isDeepMatch v (Value.vObj pr pc []) = some true) ∧
    isDeepMatch
      (Value.vObj 1 [] [("type", Value.vStr "user"), ("name", Value.vStr "Ann"),
        ("age", numV 30)])
      (Value.vObj 0 [] [("type", Value.vStr "user")]) = some true ∧
    isDeepMatch
      (Value.vObj 1 [] [("type", Value.vStr "user"), ("name", Value.vStr "Ann"),
        ("age", numV 30)])
      (Value.vObj 0 [] [("type", Value.vStr "admin")]) = some false := by
  refine ⟨fun v pr pc pfs hcomp hna => deepMatch_obj_pattern_iff hcomp hna, ?_, ?_, ?_⟩
  · intro v pr pc hcomp
    exact (deepMatch_obj_pattern_iff hcomp
      (fun _ => by simp [isArrayPattern, lookupField])).mpr (by simp)
  · simp [isDeepMatch, matchFields, hasField, getField, getProp, lookupField, strictEq]
  · simp [isDeepMatch, matchFields, hasField, getField, getProp, lookupField, strictEq]

/-- Witness for C4's amended theorem at the claim's own example. -/
theorem claim4_witness :
    isDeepMatch
      (Value.vObj 1 [] [("type", Value.vStr "user"), ("name", Value.vStr "Ann"),
        ("age", numV 30)])
      (Value.vObj 0 [] [("type", Value.vStr "user")]) = some true := by
  refine (claim4_shape_subset_amended.1
    (Value.vObj 1 [] [("type", Value.vStr "user"), ("name", Value.vStr "Ann"),
      ("age", numV 30)])
    0 [] [("type", Value.vStr "user")] rfl
    (fun habs => by simp [isArrayValue] at habs)).mpr ?_
  intro e he
  simp only [List.mem_singleton] at he
  subst he
  constructor
  · rfl
  · simp [isDeepMatch, getProp, getField, lookupField, strictEq]

lemma isArrayMatch_mkAP (vs : List Value) (len : Option JSNum) (els : Option (List Value)) :
    isArrayMatch vs (mkAP len els) =
      if lenOk vs len = true then
        (match els with
         | none => some true
         | some es =>
           if vs.length < es.length then some false else matchElems vs 0 es)
      else some false := by
  cases len with
  | none =>
    cases els with
    | none =>
      simp [isArrayMatch, mkAP_length, isUndef, lenOk]
      split
      next ref es2 hpe =>
        rw [mkAP_elements] at hpe
        exact absurd hpe (by simp)
      next hfalse => rfl
    | some es =>
      simp [isArrayMatch, mkAP_length, isUndef, lenOk]
      split
      next ref es2 hpe =>
        rw [mkAP_elements] at hpe
        injection hpe with h1 h2
        subst h2
        rfl
      next hfalse =>
        exact absurd rfl (hfalse 0 es)
  | some q =>
    by_cases hq : strictEqNum (JSNum.fin vs.length) q = true
    · cases els with
      | none =>
        simp [isArrayMatch, mkAP_length, isUndef, lenOk, strictEq, hq]
        split
        next ref es2 hpe =>
          rw [mkAP_elements] at hpe
          exact absurd hpe (by simp)
        next hfalse => rfl
      | some es =>
        simp [isArrayMatch, mkAP_length, isUndef, lenOk, strictEq, hq]
        split
        next ref es2 hpe =>
          rw [mkAP_elements] at hpe
          injection hpe with h1 h2
          subst h2
          rfl
        next hfalse =>
          exact absurd rfl (hfalse 0 es)
    · have hq2 : strictEqNum (JSNum.fin vs.length) q = false := by simpa using hq
      cases els with
      | none =>
        simp [isArrayMatch, mkAP_length, isUndef, lenOk, strictEq, hq2]
      | some es =>
        simp [isArrayMatch, mkAP_length, isUndef, lenOk, strictEq, hq2]

/-- C5: `isArrayMatch` over a well-typed `ArrayPattern` — rejects when a
`length` is given that the array's length does not equal (under `===`, so a
NaN length rejects everything); with the length constraint absent or
satisfied: no `elements` accepts outright, and an `elements` sequence rejects
shorter arrays and otherwise accepts iff every pattern index deep-matches the
corresponding element, leaving later elements unconstrained; with the claim's
examples: `[1,2,3]` matches `{length:3, elements:[1,2,3]}` and `{length:3}`,
`[1,2,3,4]` does not match `{length:3}` but matches `{elements:[1,2]}`. -/
theorem claim5_array_pattern :
    (∀ (vs : List Value) (q : JSNum) (els : Option (List Value)),
      strictEqNum (JSNum.fin vs.length) q = false →
      isArrayMatch vs (mkAP (some q) els) = some false) ∧
    (∀ (vs : List Value) (len : Option JSNum), lenOk vs len = true →
      isArrayMatch vs (mkAP len none) = some true) ∧
    (∀ (vs : List Value) (len : Option JSNum) (es : List Value),
      lenOk vs len = true → vs.length < es.length →
      isArrayMatch vs (mkAP len (some es)) = some false) ∧
    (∀ (vs : List Value) (len : Option JSNum) (es : List Value),
      lenOk vs len = true → es.length ≤ vs.length →
      (isArrayMatch vs (mkAP len (some es)) = some true ↔
        ∀ j, j < es.length →
          isDeepMatch (vs.getD j Value.vUndef) (es.getD j Value.vUndef) = some true)) ∧
    isArrayMatch [numV 1, numV 2, numV 3]
      (mkAP (some (JSNum.fin 3)) (some [numV 1, numV 2, numV 3])) = some true ∧
    isArrayMatch [numV 1, numV 2, numV 3] (mkAP (some (JSNum.fin 3)) none) = some true ∧
    isArrayMatch [numV 1, numV 2, numV 3, numV 4] (mkAP (some (JSNum.fin 3)) none) =
      some false ∧
    isArrayMatch [numV 1, numV 2, numV 3, numV 4] (mkAP none (some [numV 1, numV 2])) =
      some true := by
  refine ⟨?_, ?_, ?_, ?_, ?_, ?_, ?_, ?_⟩
  · intro vs q els hq
    rw [isArrayMatch_mkAP]
    simp [lenOk, hq]
  · intro vs len hl
    rw [isArrayMatch_mkAP]
    simp [hl]
  · intro vs len es hl hlt
    rw [isArrayMatch_mkAP]
    simp [hl, hlt]
  · intro vs len es hl hle
    rw [isArrayMatch_mkAP]
    simp only [hl, if_true, Nat.not_lt.mpr hle, if_neg (by omega : ¬vs.length < es.length)]
    have hme := @matchElems_iff vs es 0
    simp only [Nat.zero_add] at hme
    exact hme
  · simp [isArrayMatch_mkAP, lenOk, strictEqNum, matchElems, isDeepMatch, strictEq, numV]
  · simp [isArrayMatch_mkAP, lenOk, strictEqNum]
  · simp [isArrayMatch_mkAP, lenOk, strictEqNum]
  · simp [isArrayMatch_mkAP, lenOk, strictEqNum, matchElems, isDeepMatch, strictEq, numV]

/-- Witness for C5 at the claim's length-mismatch example. -/
theorem claim5_witness :
    isArrayMatch [numV 1, numV 2, numV 3, numV 4] (mkAP (some (JSNum.fin 3)) none) =
      some false :=
  claim5_array_pattern.1 [numV 1, numV 2, numV 3, numV 4] (JSNum.fin 3) none
    (by norm_num [strictEqNum])
